import Mathlib

/-!
Verification development for CoreUpdateCLI.

Shallow embedding of the live process-orchestration engine of the repository:
`run_with_live_output` and the winget helpers of `part2_helpers.py`, and the
streaming health-check helpers of `part3_health.py`.  External processes are
modelled by the outcome the Python code observes (spawn failure, the captured
output text, a timeout, the decoded JSON items); everything the code itself
computes (string handling, table parsing, rolling-log maintenance, progress
arithmetic) is translated directly from the source.  Python floats are
modelled as rationals: the progress claims at issue (monotonicity, clamping,
snapping to the phase end) do not depend on rounding.
-/

namespace CoreUpdateCLI

/-- Python `\s` whitespace (ASCII range), as used by `str.strip`, `str.rstrip`
and the `re` patterns in the source. -/
def pySpace (c : Char) : Bool :=
  c == ' ' || c == '\t' || c == '\n' || c == '\r' || c == '\x0b' || c == '\x0c'

/-- Python `line.rstrip()`. -/
def pyRstrip (s : String) : String :=
  ⟨(s.data.reverse.dropWhile pySpace).reverse⟩

/-- Python `line.strip()`. -/
def pyStrip (s : String) : String :=
  ⟨((s.data.dropWhile pySpace).reverse.dropWhile pySpace).reverse⟩

/-- Python `s.lower()` (ASCII content in the source). -/
def pyLower (s : String) : String :=
  ⟨s.data.map Char.toLower⟩

/-- `listStarts p l` is Python `l.startswith(p)` on character lists. -/
def listStarts : List Char → List Char → Bool
  | [], _ => true
  | _ :: _, [] => false
  | c :: cs, d :: ds => (c == d) && listStarts cs ds

/-- Python `s.startswith(p)`. -/
def strStarts (p s : String) : Bool :=
  listStarts p.data s.data

/-- Rolling-log append of `run_with_live_output` (part2_helpers.py lines
74-83 and the seeding at 48-50): `logs.append(s)` followed by
`if len(logs) > c: logs = logs[-c:]`.  Python `logs[-c:]` keeps the whole
list when `c = 0`, which the definition reproduces. -/
def rollAppendSlice (c : ℕ) (logs : List String) (s : String) : List String :=
  let l := logs ++ [s]
  if c < l.length then (if c = 0 then l else l.drop (l.length - c)) else l

/-- Rolling-log append of the health-check helpers (part3_health.py, e.g.
lines 134-135): `logs.append(s)` followed by `if len(logs) > c: logs.pop(0)`. -/
def rollAppendPop (c : ℕ) (logs : List String) (s : String) : List String :=
  let l := logs ++ [s]
  if c < l.length then l.tail else l

/-- Worker for `pySplitCols`: Python `re.split(r"\s{2,}", t)`.  `cur` is the
current token (reversed), `pend` the run of whitespace seen since the last
non-space character (reversed), `toks` the finished tokens (reversed).  A run
of two or more whitespace characters is a split point; a single whitespace
character stays inside the token. -/
def splitColsAux : List Char → List Char → List Char → List (List Char) → List (List Char)
  | [], cur, pend, toks =>
      if 2 ≤ pend.length then (([] : List Char) :: cur.reverse :: toks).reverse
      else ((pend ++ cur).reverse :: toks).reverse
  | c :: rest, cur, pend, toks =>
      if pySpace c then splitColsAux rest cur (c :: pend) toks
      else if 2 ≤ pend.length then splitColsAux rest [c] [] (cur.reverse :: toks)
      else splitColsAux rest (c :: (pend ++ cur)) [] toks

/-- Python `re.split(r"\s{2,}", s)`: column splitting on two or more
consecutive whitespace characters (part2_helpers.py line 166,
part3_health.py line 127). -/
def pySplitCols (s : String) : List String :=
  (splitColsAux s.data [] [] []).map fun l => ⟨l⟩

/-- Worker for `pySplitlines`: splits on `\n`, `\r\n` and `\r`, with no
trailing empty line (CPython `str.splitlines`). -/
def splitlinesAux : List Char → List Char → List (List Char)
  | [], cur => if cur.isEmpty then [] else [cur.reverse]
  | '\r' :: '\n' :: rest, cur => cur.reverse :: splitlinesAux rest []
  | '\n' :: rest, cur => cur.reverse :: splitlinesAux rest []
  | '\r' :: rest, cur => cur.reverse :: splitlinesAux rest []
  | c :: rest, cur => splitlinesAux rest (c :: cur)

/-- Python `out.splitlines()` (ASCII line terminators, as produced by the
text-mode pipes in the source). -/
def pySplitlines (s : String) : List String :=
  (splitlinesAux s.data []).map fun l => ⟨l⟩

/-- Literal matcher: consume `lit` from the front of `l`, returning the rest. -/
def eatLit : List Char → List Char → Option (List Char)
  | [], l => some l
  | _ :: _, [] => none
  | c :: cs, d :: ds => if c = d then eatLit cs ds else none

/-- Regex `\s+` followed by nothing: consume at least one whitespace
character and then the maximal run (the following literals in the header
pattern start with non-whitespace, so greedy matching is exact). -/
def eatSpaces1 : List Char → Option (List Char)
  | [] => none
  | c :: rest => if pySpace c then some (rest.dropWhile pySpace) else none

/-- Python `re.match(r"^\s*Name\s+Id\s+Version\s+Available", line)`
(part3_health.py line 120). -/
def matchHeader (s : String) : Bool :=
  let l := s.data.dropWhile pySpace
  (do
    let l ← eatLit "Name".data l
    let l ← eatSpaces1 l
    let l ← eatLit "Id".data l
    let l ← eatSpaces1 l
    let l ← eatLit "Version".data l
    let l ← eatSpaces1 l
    let _ ← eatLit "Available".data l
    pure ()).isSome

/-- Python `re.match(r"^\s*-{3,}", line)` (part3_health.py line 122). -/
def matchSep (s : String) : Bool :=
  3 ≤ ((s.data.dropWhile pySpace).takeWhile fun c => c == '-').length

/-- Python `re.match(r"^\s*(Name|---)", line)` (part2_helpers.py line 164). -/
def matchNameOrDashes (s : String) : Bool :=
  let l := s.data.dropWhile pySpace
  listStarts "Name".data l || listStarts "---".data l

/-- The `WingetApp` dataclass of part2_helpers.py (also the shape of the
row dictionaries built by `_stream_winget_upgrades`, which use the same four
fields under the keys Id/Name/Version/Available). -/
structure WingetApp where
  id : String
  name : String
  version : String
  available : String
deriving DecidableEq

/-- Python `"\n".join(lines)`. -/
def joinLines : List String → String
  | [] => ""
  | [s] => s
  | s :: rest => s ++ "\n" ++ joinLines rest

/-!  ## `run_with_live_output` (part2_helpers.py lines 22-93)

The spawned process is modelled by what the Python code observes of it:
either `Popen` raises `FileNotFoundError` — the only exception the
source's `except FileNotFoundError:` handler catches — or the loop
receives a finite sequence of (truthy) lines from `readline` and then
`poll`/`wait` reports a final return code (`None` kept as an explicit
`Option`, since the code handles it with `or 0`).  A `Popen` failure other
than `FileNotFoundError` (e.g. `PermissionError` for an executable that is
present but cannot be started) is not caught by the source and propagates
to the caller; that path is modelled one level up, by
`run_with_live_output_attempt` below, whose `SpawnAttempt` input covers the
full spawn-failure space. -/
inductive SpawnResult where
  | notFound
  | ok (lines : List String) (returncode : Option Int)
deriving DecidableEq

/-- Per-run mutable state of `run_with_live_output`: the rolling log panel
`logs`, the accumulated `combined` output lines, the line counter `tick`
and the progress task's completed value. -/
structure RunState where
  logs : List String
  combined : List String
  tick : ℕ
  progress : ℕ
deriving DecidableEq

/-- One iteration of the read loop of `run_with_live_output` for a received
line (part2_helpers.py lines 74-83): rstrip, accumulate into `combined`,
append to the rolling log with slice-trim at capacity 40, count the line and
advance the bar by 1 while the count stays within `soft_total`. -/
def rwloStep (softTotal : ℕ) (st : RunState) (line : String) : RunState :=
  let s := pyRstrip line
  { logs := rollAppendSlice 40 st.logs s
    combined := st.combined ++ [s]
    tick := st.tick + 1
    progress := if st.tick + 1 ≤ softTotal then st.progress + 1 else st.progress }

/-- `run_with_live_output` (part2_helpers.py lines 22-93).  Returns the
`(exit_code, combined_output_string)` pair of the source.  On
`FileNotFoundError` the function returns `(127, msg)` without reading any
line; otherwise it folds the read loop over the received lines and returns
`proc.returncode or 0` with the joined combined output. -/
def run_with_live_output (cmd0 : String) (title : String) (softTotal : ℕ)
    (spawn : SpawnResult) : Int × String :=
  match spawn with
  | .notFound => (127, "Command not found: " ++ cmd0)
  | .ok lines rc =>
      let st := lines.foldl (rwloStep softTotal)
        { logs := rollAppendSlice 40 [] title, combined := [], tick := 0, progress := 0 }
      (rc.getD 0, joinLines st.combined)

/-- Final state of the read loop of `run_with_live_output`, exposed for the
claims about the rolling log and the per-line behaviour. -/
def runLoopState (title : String) (softTotal : ℕ) (lines : List String) : RunState :=
  lines.foldl (rwloStep softTotal)
    { logs := rollAppendSlice 40 [] title, combined := [], tick := 0, progress := 0 }

/-!  ## `_stream_winget_upgrades` (part3_health.py lines 74-145)

The helper runs `winget upgrade --include-unknown` through
`proc.communicate(timeout=30)` and then iterates over the captured output's
lines.  The process is modelled by the three outcomes the code handles:
`Popen` raising `FileNotFoundError` (the only exception its
`except FileNotFoundError:` catches), `communicate` returning the full
output in time, or `communicate` raising `TimeoutExpired`.  The `timedOut`
constructor carries the lines the process had emitted before the timeout;
the Python code never sees them (`communicate` raises and its partial
output is lost), which the definition reproduces by ignoring the field.
A `Popen` failure other than `FileNotFoundError` propagates uncaught; that
path is modelled one level up, by `streamWingetAttempt` below, whose
`StreamAttempt` input covers the full spawn-failure space. -/
inductive StreamSpawn where
  | notFound
  | completed (out : String)
  | timedOut (emitted : List String)
deriving DecidableEq

/-- Mutable state of the line loop of `_stream_winget_upgrades`: the shared
rolling log, the accumulated `apps` rows, the two table-shape flags and
`current_pct`. -/
structure StreamState where
  logs : List String
  apps : List WingetApp
  headerSeen : Bool
  sepSeen : Bool
  pct : ℚ
deriving DecidableEq

/-- Python `min(a, b)` on rationals (returns `a` on ties, as Python does). -/
def pyMin (a b : ℚ) : ℚ :=
  if a ≤ b then a else b

/-- `_bump` (part3_health.py lines 98-102): one fixed step of
`(phase_end - phase_start) / 50`, clamped to `phase_end`. -/
def bump (pS pE pct : ℚ) : ℚ :=
  pyMin pE (pct + (pE - pS) / 50)

/-- The `Found: {name} ({pid}) {ver or '?'} → {avail}` log line of
part3_health.py line 134. -/
def foundMsg (name pid ver avail : String) : String :=
  "Found: " ++ name ++ " (" ++ pid ++ ") " ++ (if ver = "" then "?" else ver)
    ++ " → " ++ avail

/-- One iteration of the line loop of `_stream_winget_upgrades`
(part3_health.py lines 115-142).  Returns the new state together with the
list of `progress.update` values issued during the iteration (`[]` or a
singleton). -/
def streamStep (pS pE : ℚ) (st : StreamState) (line0 : String) :
    StreamState × List ℚ :=
  let line := pyRstrip line0
  let n := bump pS pE st.pct
  if line = "" then ({ st with pct := n }, [n])
  else if matchHeader line then
    ({ st with headerSeen := true, sepSeen := false }, [])
  else if st.headerSeen && matchSep line then
    ({ st with sepSeen := true }, [])
  else if !(st.headerSeen && st.sepSeen) then ({ st with pct := n }, [n])
  else
    match pySplitCols (pyStrip line) with
    | name :: pid :: ver :: avail :: _ =>
      if strStarts "no " (pyLower pid) || strStarts "no " (pyLower name) then
        ({ st with pct := n }, [n])
      else
        ({ st with
            apps := st.apps ++ [⟨pid, name, ver, avail⟩]
            logs := rollAppendPop 20 st.logs (foundMsg name pid ver avail)
            pct := n }, [n])
    | _ => ({ st with logs := rollAppendPop 20 st.logs line, pct := n }, [n])

/-- The line loop of `_stream_winget_upgrades`, folding `streamStep` and
concatenating the progress updates of every iteration. -/
def streamRun (pS pE : ℚ) : StreamState → List String → StreamState × List ℚ
  | st, [] => (st, [])
  | st, l :: ls =>
    let p := streamStep pS pE st l
    let q := streamRun pS pE p.1 ls
    (q.1, p.2 ++ q.2)

/-- Result of `_stream_winget_upgrades`: the returned rows, the shared log
list as left behind, the task's completed value after the call, and the
sequence of completed values passed to `progress.update` during the call. -/
structure StreamResult where
  apps : List WingetApp
  logs : List String
  pct : ℚ
  trace : List ℚ
deriving DecidableEq

/-- Log message of part3_health.py line 90. -/
def checkingMsg : String := "Checking for app updates…"

/-- `_stream_winget_upgrades` (part3_health.py lines 74-145).  `logs0` is
the shared log list at entry and `pct0` the task's completed value at entry
(used only by the `notFound` path, which never touches the progress bar).
On `FileNotFoundError` the helper logs a message (append without trim) and
returns no rows; on timeout it kills the process, logs a timeout message
(append with pop-trim) and returns the — still empty — `apps`, snapping
progress to `phase_end`; otherwise it initialises `current_pct` to
`phase_start`, folds the line loop over the output's lines and finally snaps
progress to `phase_end`. -/
def streamWinget (pS pE : ℚ) (logs0 : List String) (pct0 : ℚ)
    (spawn : StreamSpawn) : StreamResult :=
  match spawn with
  | .notFound =>
      { apps := []
        logs := logs0 ++ ["winget not found (install App Installer from Microsoft Store)."]
        pct := pct0
        trace := [] }
  | .timedOut _ =>
      { apps := []
        logs := rollAppendPop 20 (logs0 ++ [checkingMsg]) "winget scan timed out."
        pct := pE
        trace := [pE] }
  | .completed out =>
      let st0 : StreamState :=
        { logs := logs0 ++ [checkingMsg], apps := [], headerSeen := false
          sepSeen := false, pct := pS }
      let r := streamRun pS pE st0 (pySplitlines out)
      { apps := r.1.apps, logs := r.1.logs, pct := pE, trace := r.2 ++ [pE] }

/-!  ## `_scan_windows_updates_quiet` progress behaviour
(part3_health.py lines 149-230)

The helper is modelled by its effect on the progress bar, which is all the
claims use: on PowerShell missing, on timeout, and on an empty update list
the only update is the final snap to `phase_end`; otherwise each of the
first fifty reported updates bumps the current completed value by
`(phase_end - phase_start) / 40` clamped to `phase_end`
(part3_health.py lines 221-224), followed by the final snap. -/
/-- The per-update bump of `_scan_windows_updates_quiet`
(part3_health.py lines 222-224). -/
def quietBump (pS pE cur : ℚ) : ℚ :=
  pyMin pE (cur + (pE - pS) / 40)

/-- The sequence of completed values issued by the update loop of
`_scan_windows_updates_quiet` for `k` iterations starting from completed
value `cur`, followed by the final `progress.update(task, completed=pE)`. -/
def quietTrace (pS pE : ℚ) : ℕ → ℚ → List ℚ
  | 0, _ => [pE]
  | k + 1, cur => quietBump pS pE cur :: quietTrace pS pE k (quietBump pS pE cur)

/-- Outcomes of `_scan_windows_updates_quiet` that the progress bar can
distinguish: PowerShell missing, timeout, or a scan that reported `n`
update rows (a JSON parse error reports zero rows). -/
inductive QuietOutcome where
  | psNotFound
  | timedOut
  | items (n : ℕ)
deriving DecidableEq

/-- The sequence of completed values issued by one call of
`_scan_windows_updates_quiet`, given the task's completed value `cur0` at
entry.  The update loop runs over `items[:50]`. -/
def scanQuietPcts (pS pE cur0 : ℚ) : QuietOutcome → List ℚ
  | .psNotFound => [pE]
  | .timedOut => [pE]
  | .items n => quietTrace pS pE (min n 50) cur0

/-!  ## `health_check` (part3_health.py lines 234-313)

Modelled from the point the live scan starts (the dependency guard and the
final summary/fix prompt are interactive I/O).  The junk-size log line
renders a float through `human_bytes`; the rendered string is taken as an
input `junkMsg` since floating-point formatting is outside the embedding,
and no claim depends on its content. -/
/-- Log message of part3_health.py line 263. -/
def prepMsg : String := "Preparing winget app scan…"

/-- Log message of part3_health.py line 272. -/
def skipMsg : String := "Windows updates disabled; skipping PowerShell scan."

/-- Observable outcome of `health_check`: the final shared log list, the
sequence of completed values passed to `progress.update`, and the rows of
the app scan. -/
structure HealthResult where
  logs : List String
  trace : List ℚ
  apps : List WingetApp
deriving DecidableEq

/-- `health_check` (part3_health.py lines 234-313): app scan streamed over
the hard-coded range 0–40, Windows-update phase skipped with a log message
and a single snap of completed to 80, junk scan logged and completed
snapped to 100. -/
def healthCheck (spawn : StreamSpawn) (junkMsg : String) : HealthResult :=
  let logs1 : List String := [prepMsg]
  let r := streamWinget 0 40 logs1 0 spawn
  let logs2 := rollAppendPop 20 r.logs
    ("App scan complete. " ++ toString r.apps.length ++ " update(s) detected.")
  let logs3 := rollAppendPop 20 logs2 skipMsg
  let logs4 := logs3 ++ ["Scanning junk files…"]
  let logs5 := rollAppendPop 20 logs4 junkMsg
  let logs6 := logs5 ++ ["Scan complete."]
  { logs := logs6, trace := r.trace ++ [80, 100], apps := r.apps }

/-!  ## `winget_list_upgrades` (part2_helpers.py lines 135-171)  -/
/-- One line of the column-table fallback of `winget_list_upgrades`
(part2_helpers.py lines 163-170): skip lines matching `^\s*(Name|---)`,
split the stripped line on runs of two or more whitespace characters, and
accept the first four columns as a row when the Id and Available columns
are non-empty and the Id does not start with the `no ` sentinel. -/
def tableRowOfLine (line : String) : Option WingetApp :=
  if matchNameOrDashes line then none
  else
    match pySplitCols (pyStrip line) with
    | name :: pid :: ver :: avail :: _ =>
        if !(pid == "") && !(avail == "") && !(strStarts "no " (pyLower pid)) then
          some ⟨pid, name, ver, avail⟩
        else none
    | _ => none

/-- The column-table fallback loop of `winget_list_upgrades`
(part2_helpers.py lines 161-171) over the lines of the second run's
captured stdout. -/
def parseUpgradeTable (lines : List String) : List WingetApp :=
  lines.filterMap tableRowOfLine

/-- One decoded object of the winget JSON array, as accessed by
`winget_list_upgrades` (part2_helpers.py lines 149-153).  A field is `none`
when the key is absent (Python `dict.get` returning `None`). -/
structure WingetJsonItem where
  idField : Option String
  packageIdentifier : Option String
  nameField : Option String
  versionField : Option String
  installedVersion : Option String
  availableField : Option String
  availableVersion : Option String
deriving DecidableEq

/-- Python `a or b` on optional strings: `a` when it is truthy (present and
non-empty), otherwise `b`. -/
def pyOrS : Option String → Option String → Option String
  | some s, b => if s = "" then b else some s
  | none, b => b

/-- The loop body of the JSON path of `winget_list_upgrades`
(part2_helpers.py lines 149-155): resolve each field through the `or`
chains of the source and keep the row only if `pid and avail` is truthy. -/
def jsonRow (it : WingetJsonItem) : Option WingetApp :=
  let pid := pyOrS it.idField it.packageIdentifier
  let name := it.nameField.getD ""
  let ver := (pyOrS it.versionField it.installedVersion).getD ""
  let avail := (pyOrS it.availableField it.availableVersion).getD ""
  match pid with
  | some p => if !(p == "") && !(avail == "") then some ⟨p, name, ver, avail⟩ else none
  | none => none

/-- The JSON path of `winget_list_upgrades` (part2_helpers.py lines
148-155): the rows accumulated over the decoded items. -/
def parseJsonItems (items : List WingetJsonItem) : List WingetApp :=
  items.filterMap jsonRow

/-- `hasRequired it` states that the decoded object carries the required
fields of the claim: a non-empty identifier (after the `Id` /
`PackageIdentifier` fallback) and a non-empty available version (after the
`Available` / `AvailableVersion` fallback). -/
def hasRequired (it : WingetJsonItem) : Bool :=
  !((pyOrS it.idField it.packageIdentifier).getD "" == "")
    && !((pyOrS it.availableField it.availableVersion).getD "" == "")

/-- The row built from a decoded object that has the required fields,
following the field resolution of part2_helpers.py lines 150-153. -/
def mkJsonRow (it : WingetJsonItem) : WingetApp :=
  { id := (pyOrS it.idField it.packageIdentifier).getD ""
    name := it.nameField.getD ""
    version := (pyOrS it.versionField it.installedVersion).getD ""
    available := (pyOrS it.availableField it.availableVersion).getD "" }

/-- Outcome of `json.loads(res.stdout)` on the first run's output: a decoded
list of objects, or any exception of the `try` block (malformed JSON, or a
decode result that is not a list of objects). -/
inductive JsonDecode where
  | ok (items : List WingetJsonItem)
  | err
deriving DecidableEq

/-- `winget_list_upgrades` (part2_helpers.py lines 135-171).  Effects are
modelled by their observed outcomes: `ready` is whether
`ensure_winget_ready()` succeeded, `helpHasOutput` whether `--output`
occurs in the help text, `jsonDecode` the decode outcome of the first
(JSON) run, and `tableLines` the lines of the second (table) run's stdout.
The JSON result is returned only when it contains at least one row
(`if rows: return rows`); otherwise the table fallback runs. -/
def winget_list_upgrades (ready helpHasOutput : Bool) (jsonDecode : JsonDecode)
    (tableLines : List String) : List WingetApp :=
  if ready = false then []
  else if helpHasOutput then
    match jsonDecode with
    | .ok items =>
        let rows := parseJsonItems items
        if rows.isEmpty then parseUpgradeTable tableLines else rows
    | .err => parseUpgradeTable tableLines
  else parseUpgradeTable tableLines

/-!  ## Spawn failures beyond `FileNotFoundError`

Both `run_with_live_output` and `_stream_winget_upgrades` guard `Popen`
with a bare `except FileNotFoundError:`.  Any other exception raised while
starting the process — e.g. `PermissionError` for an executable that is
present but cannot be started, or `OSError` for a bad binary format — is
not caught and propagates to the caller.  The following layer makes that
path expressible: a spawn attempt either raises some exception or starts;
a raised `FileNotFoundError` is handled by the inner functions above,
while every other exception is re-raised, modelled as `Except.error`. -/

/-- An exception raised by `Popen` while spawning: `fileNotFound` is
`FileNotFoundError`, `other` stands for any other spawn-time exception
(`PermissionError`, `OSError`, ...), which the source does not catch. -/
inductive PopenExc where
  | fileNotFound
  | other
deriving DecidableEq

/-- Full outcome space of the `Popen` call of `run_with_live_output`:
either the spawn raises, or the process starts and the read loop observes
its lines and return code. -/
inductive SpawnAttempt where
  | fails (e : PopenExc)
  | starts (lines : List String) (returncode : Option Int)
deriving DecidableEq

/-- `run_with_live_output` over the full spawn-outcome space
(part2_helpers.py lines 58-66): `FileNotFoundError` is caught and handled
by the body (exit code 127 with the not-found message); any other spawn
exception propagates to the caller, modelled as `Except.error`. -/
def run_with_live_output_attempt (cmd0 : String) (title : String)
    (softTotal : ℕ) : SpawnAttempt → Except PopenExc (Int × String)
  | .fails .fileNotFound =>
      .ok (run_with_live_output cmd0 title softTotal SpawnResult.notFound)
  | .fails .other => .error .other
  | .starts lines rc =>
      .ok (run_with_live_output cmd0 title softTotal (SpawnResult.ok lines rc))

/-- Full outcome space of the `Popen` call of `_stream_winget_upgrades`:
the spawn raises, or the started process completes in time, or it hits the
30-second timeout. -/
inductive StreamAttempt where
  | fails (e : PopenExc)
  | completed (out : String)
  | timedOut (emitted : List String)
deriving DecidableEq

/-- `_stream_winget_upgrades` over the full spawn-outcome space
(part3_health.py lines 82-88): `FileNotFoundError` is caught and handled by
the body (a log message and an empty row list); any other spawn exception
propagates to the caller, modelled as `Except.error`. -/
def streamWingetAttempt (pS pE : ℚ) (logs0 : List String) (pct0 : ℚ) :
    StreamAttempt → Except PopenExc StreamResult
  | .fails .fileNotFound => .ok (streamWinget pS pE logs0 pct0 StreamSpawn.notFound)
  | .fails .other => .error .other
  | .completed out => .ok (streamWinget pS pE logs0 pct0 (StreamSpawn.completed out))
  | .timedOut emitted => .ok (streamWinget pS pE logs0 pct0 (StreamSpawn.timedOut emitted))

/-- Classification of a received line as a header event of the stream line
loop: non-blank after rstrip and matching the header pattern
(part3_health.py lines 116-121). -/
def isHeaderLine (line0 : String) : Bool :=
  !(pyRstrip line0 == "") && matchHeader (pyRstrip line0)

/-- Classification of a received line as a separator event of the stream
line loop: non-blank, not a header, header already seen, and matching the
dash-run pattern (part3_health.py line 122). -/
def isSepLine (st : StreamState) (line0 : String) : Bool :=
  !(pyRstrip line0 == "") && !(matchHeader (pyRstrip line0))
    && st.headerSeen && matchSep (pyRstrip line0)

theorem rollAppendSlice_step (c : ℕ) (hc : 0 < c) (l : List String) (s : String)
    (hl : l.length ≤ c) :
    rollAppendSlice c l s = (l ++ [s]).drop (l.length + 1 - c) := by
  unfold rollAppendSlice
  dsimp only
  simp only [List.length_append, List.length_cons, List.length_nil]
  by_cases h : c < l.length + (0 + 1)
  · rw [if_pos h, if_neg (by omega)]
  · rw [if_neg h]
    have hz : l.length + 1 - c = 0 := by omega
    rw [hz, List.drop_zero]

theorem rollAppendPop_step (c : ℕ) (l : List String) (s : String)
    (hl : l.length ≤ c) :
    rollAppendPop c l s = (l ++ [s]).drop (l.length + 1 - c) := by
  unfold rollAppendPop
  dsimp only
  simp only [List.length_append, List.length_cons, List.length_nil]
  by_cases h : c < l.length + (0 + 1)
  · rw [if_pos h, ← List.drop_one]
    have hone : l.length + 1 - c = 1 := by omega
    rw [hone]
  · rw [if_neg h]
    have hz : l.length + 1 - c = 0 := by omega
    rw [hz, List.drop_zero]

theorem rollAppendSlice_step_length (c : ℕ) (hc : 0 < c) (l : List String)
    (s : String) (hl : l.length ≤ c) :
    (rollAppendSlice c l s).length ≤ c := by
  rw [rollAppendSlice_step c hc l s hl, List.length_drop, List.length_append]
  simp only [List.length_cons, List.length_nil]
  omega

theorem rollAppendPop_step_length (c : ℕ) (l : List String)
    (s : String) (hl : l.length ≤ c) :
    (rollAppendPop c l s).length ≤ c := by
  rw [rollAppendPop_step c l s hl, List.length_drop, List.length_append]
  simp only [List.length_cons, List.length_nil]
  omega

theorem rollAppendSlice_eq_drop (c : ℕ) (hc : 0 < c) :
    ∀ (xs : List String) (init : List String), init.length ≤ c →
      List.foldl (rollAppendSlice c) init xs
        = (init ++ xs).drop (init.length + xs.length - c) := by
  intro xs
  induction xs with
  | nil =>
      intro init hinit
      simp [Nat.sub_eq_zero_of_le hinit]
  | cons x xs ih =>
      intro init hinit
      rw [List.foldl_cons, ih _ (rollAppendSlice_step_length c hc init x hinit),
        rollAppendSlice_step c hc init x hinit]
      have hdle : init.length + 1 - c ≤ (init ++ [x]).length := by
        simp only [List.length_append, List.length_cons, List.length_nil]
        omega
      rw [← List.drop_append_of_le_length hdle, List.drop_drop]
      have hAxs : (init ++ [x]) ++ xs = init ++ x :: xs := by
        simp
      rw [hAxs]
      congr 1
      simp only [List.length_drop, List.length_append, List.length_cons,
        List.length_nil]
      omega

theorem rollAppendPop_eq_drop (c : ℕ) :
    ∀ (xs : List String) (init : List String), init.length ≤ c →
      List.foldl (rollAppendPop c) init xs
        = (init ++ xs).drop (init.length + xs.length - c) := by
  intro xs
  induction xs with
  | nil =>
      intro init hinit
      simp [Nat.sub_eq_zero_of_le hinit]
  | cons x xs ih =>
      intro init hinit
      rw [List.foldl_cons, ih _ (rollAppendPop_step_length c init x hinit),
        rollAppendPop_step c init x hinit]
      have hdle : init.length + 1 - c ≤ (init ++ [x]).length := by
        simp only [List.length_append, List.length_cons, List.length_nil]
        omega
      rw [← List.drop_append_of_le_length hdle, List.drop_drop]
      have hAxs : (init ++ [x]) ++ xs = init ++ x :: xs := by
        simp
      rw [hAxs]
      congr 1
      simp only [List.length_drop, List.length_append, List.length_cons,
        List.length_nil]
      omega

theorem pyMin_eq_min (a b : ℚ) : pyMin a b = min a b :=
  (min_def a b).symm

/-!  ## Progress lemmas  -/
theorem bump_le_end (pS pE pct : ℚ) : bump pS pE pct ≤ pE := by
  rw [bump, pyMin_eq_min]
  exact min_le_left _ _

theorem le_bump (pS pE pct : ℚ) (h : pS ≤ pE) (hp : pct ≤ pE) :
    pct ≤ bump pS pE pct := by
  rw [bump, pyMin_eq_min]
  refine le_min hp ?_
  have hstep : (0 : ℚ) ≤ (pE - pS) / 50 :=
    div_nonneg (sub_nonneg.mpr h) (by norm_num)
  linarith

theorem quietBump_le_end (pS pE cur : ℚ) : quietBump pS pE cur ≤ pE := by
  rw [quietBump, pyMin_eq_min]
  exact min_le_left _ _

theorem le_quietBump (pS pE cur : ℚ) (h : pS ≤ pE) (hc : cur ≤ pE) :
    cur ≤ quietBump pS pE cur := by
  rw [quietBump, pyMin_eq_min]
  refine le_min hc ?_
  have hstep : (0 : ℚ) ≤ (pE - pS) / 40 :=
    div_nonneg (sub_nonneg.mpr h) (by norm_num)
  linarith

/-- Every iteration of the stream line loop either issues no progress update
and leaves `current_pct` unchanged (header and separator lines), or issues
exactly one update to `bump` of the current value. -/
theorem streamStep_pct_cases (pS pE : ℚ) (st : StreamState) (line : String) :
    ((streamStep pS pE st line).2 = []
        ∧ (streamStep pS pE st line).1.pct = st.pct)
    ∨ ((streamStep pS pE st line).2 = [bump pS pE st.pct]
        ∧ (streamStep pS pE st line).1.pct = bump pS pE st.pct) := by
  unfold streamStep
  dsimp only
  split_ifs
  · right; exact ⟨rfl, rfl⟩
  · left; exact ⟨rfl, rfl⟩
  · left; exact ⟨rfl, rfl⟩
  · right; exact ⟨rfl, rfl⟩
  · split
    · split_ifs
      · right; exact ⟨rfl, rfl⟩
      · right; exact ⟨rfl, rfl⟩
    · right; exact ⟨rfl, rfl⟩

/-- Invariant of the stream line loop: starting at or below `phase_end`,
the issued progress values form a non-decreasing chain from the entry value,
never exceed `phase_end`, and the loop leaves `current_pct` at or below
`phase_end`. -/
theorem streamRun_spec (pS pE : ℚ) (h : pS ≤ pE) :
    ∀ (lines : List String) (st : StreamState), st.pct ≤ pE →
      List.Chain (· ≤ ·) st.pct (streamRun pS pE st lines).2
      ∧ (∀ x ∈ (streamRun pS pE st lines).2, x ≤ pE)
      ∧ (streamRun pS pE st lines).1.pct ≤ pE := by
  intro lines
  induction lines with
  | nil =>
      intro st hst
      exact ⟨List.Chain.nil, by simp [streamRun], by simpa [streamRun] using hst⟩
  | cons l ls ih =>
      intro st hst
      have hcases := streamStep_pct_cases pS pE st l
      rcases hcases with ⟨h2, h1⟩ | ⟨h2, h1⟩
      · have hle : (streamStep pS pE st l).1.pct ≤ pE := by rw [h1]; exact hst
        obtain ⟨ihc, ihm, ihp⟩ := ih (streamStep pS pE st l).1 hle
        rw [h1] at ihc
        refine ⟨?_, ?_, ?_⟩
        · simpa [streamRun, h2] using ihc
        · simpa [streamRun, h2] using ihm
        · simpa [streamRun] using ihp
      · have hble : bump pS pE st.pct ≤ pE := bump_le_end pS pE st.pct
        have hle : (streamStep pS pE st l).1.pct ≤ pE := by rw [h1]; exact hble
        obtain ⟨ihc, ihm, ihp⟩ := ih (streamStep pS pE st l).1 hle
        rw [h1] at ihc
        refine ⟨?_, ?_, ?_⟩
        · have : List.Chain (· ≤ ·) st.pct (bump pS pE st.pct
              :: (streamRun pS pE (streamStep pS pE st l).1 ls).2) :=
            List.Chain.cons (le_bump pS pE st.pct h hst) ihc
          simpa [streamRun, h2] using this
        · intro x hx
          simp only [streamRun, h2, List.cons_append, List.nil_append,
            List.mem_cons] at hx
          rcases hx with rfl | hx
          · exact hble
          · exact ihm x hx
        · simpa [streamRun] using ihp

/-- Appending the final snap to `e` keeps a bounded non-decreasing chain a
chain. -/
theorem chain_le_append_single {e : ℚ} :
    ∀ {t : List ℚ} {c : ℚ}, List.Chain (· ≤ ·) c t → c ≤ e →
      (∀ x ∈ t, x ≤ e) → List.Chain (· ≤ ·) c (t ++ [e]) := by
  intro t
  induction t with
  | nil =>
      intro c _ hce _
      exact List.Chain.cons hce List.Chain.nil
  | cons a t ih =>
      intro c hchain hce hmem
      rcases List.chain_cons.mp hchain with ⟨hca, hat⟩
      exact List.Chain.cons hca
        (ih hat (hmem a (by simp)) fun x hx => hmem x (by simp [hx]))

/-- The progress updates issued by one `_stream_winget_upgrades` call form a
non-decreasing chain from `phase_start`, never exceed `phase_end`, and end
exactly at `phase_end` whenever the helper touches the bar at all (both the
normal and the timeout exit snap to `phase_end`; the command-not-found path
never touches it). -/
theorem streamWinget_trace_spec (pS pE : ℚ) (h : pS ≤ pE) (logs0 : List String)
    (pct0 : ℚ) (spawn : StreamSpawn) :
    List.Chain (· ≤ ·) pS (streamWinget pS pE logs0 pct0 spawn).trace
    ∧ (∀ x ∈ (streamWinget pS pE logs0 pct0 spawn).trace, x ≤ pE)
    ∧ (spawn ≠ .notFound →
        (streamWinget pS pE logs0 pct0 spawn).trace.getLast? = some pE) := by
  cases spawn with
  | notFound =>
      refine ⟨List.Chain.nil, by simp [streamWinget], ?_⟩
      intro hne
      exact absurd rfl hne
  | timedOut emitted =>
      refine ⟨?_, ?_, ?_⟩
      · exact List.Chain.cons h List.Chain.nil
      · intro x hx
        simp only [streamWinget, List.mem_singleton] at hx
        rw [hx]
      · intro _
        rfl
  | completed out =>
      obtain ⟨hc, hm, _⟩ := streamRun_spec pS pE h (pySplitlines out)
        { logs := logs0 ++ [checkingMsg], apps := [], headerSeen := false
          sepSeen := false, pct := pS } (le_refl pE ▸ h)
      refine ⟨?_, ?_, ?_⟩
      · exact chain_le_append_single hc h hm
      · intro x hx
        simp only [streamWinget, List.mem_append, List.mem_singleton] at hx
        rcases hx with hx | hx
        · exact hm x hx
        · rw [hx]
      · intro _
        simp [streamWinget, List.getLast?_concat]

/-- `quietTrace` is never empty. -/
theorem quietTrace_ne_nil (pS pE : ℚ) (k : ℕ) (cur : ℚ) :
    quietTrace pS pE k cur ≠ [] := by
  cases k <;> simp [quietTrace]

/-- The update loop of `_scan_windows_updates_quiet` issues a non-decreasing
chain from the entry value, bounded by `phase_end`, ending exactly at
`phase_end`. -/
theorem quietTrace_spec (pS pE : ℚ) (h : pS ≤ pE) :
    ∀ (k : ℕ) (cur : ℚ), cur ≤ pE →
      List.Chain (· ≤ ·) cur (quietTrace pS pE k cur)
      ∧ (∀ x ∈ quietTrace pS pE k cur, x ≤ pE)
      ∧ (quietTrace pS pE k cur).getLast? = some pE := by
  intro k
  induction k with
  | zero =>
      intro cur hcur
      exact ⟨List.Chain.cons hcur List.Chain.nil, by simp [quietTrace], rfl⟩
  | succ k ih =>
      intro cur hcur
      have hqle : quietBump pS pE cur ≤ pE := quietBump_le_end pS pE cur
      obtain ⟨ihc, ihm, ihl⟩ := ih (quietBump pS pE cur) hqle
      refine ⟨?_, ?_, ?_⟩
      · exact List.Chain.cons (le_quietBump pS pE cur h hcur) ihc
      · intro x hx
        simp only [quietTrace, List.mem_cons] at hx
        rcases hx with hx | hx
        · rw [hx]; exact hqle
        · exact ihm x hx
      · show (quietBump pS pE cur :: quietTrace pS pE k (quietBump pS pE cur)).getLast? = some pE
        obtain ⟨b, T, hbT⟩ :=
          List.exists_cons_of_ne_nil (quietTrace_ne_nil pS pE k (quietBump pS pE cur))
        rw [hbT, List.getLast?_cons_cons, ← hbT]
        exact ihl

/-!  ## Rolling-log membership lemmas  -/
theorem rollAppendPop_length_ge (c : ℕ) (l : List String) (s : String) :
    l.length ≤ (rollAppendPop c l s).length := by
  unfold rollAppendPop
  dsimp only
  split_ifs with hif
  · rw [List.length_tail, List.length_append]
    simp
  · rw [List.length_append]
    simp

theorem mem_rollAppendPop_self (c : ℕ) (l : List String) (s : String)
    (hl : l ≠ []) : s ∈ rollAppendPop c l s := by
  unfold rollAppendPop
  dsimp only
  split_ifs with hif
  · cases l with
    | nil => exact absurd rfl hl
    | cons a t =>
        rw [List.cons_append, List.tail_cons]
        exact List.mem_append_right t (by simp)
  · exact List.mem_append_right l (by simp)

theorem mem_tail_rollAppendPop_self (c : ℕ) (l : List String) (s : String)
    (hl : 2 ≤ l.length) : s ∈ (rollAppendPop c l s).tail := by
  unfold rollAppendPop
  dsimp only
  match l, hl with
  | a :: b :: t, _ =>
    split_ifs with hif
    · rw [List.cons_append, List.tail_cons, List.cons_append, List.tail_cons]
      exact List.mem_append_right t (by simp)
    · rw [List.cons_append, List.tail_cons, List.cons_append]
      exact List.mem_cons_of_mem b (List.mem_append_right t (by simp))

theorem mem_tail_append_single {x : String} (l : List String) (s : String)
    (hx : x ∈ l.tail) : x ∈ (l ++ [s]).tail := by
  cases l with
  | nil => simp at hx
  | cons a t =>
      rw [List.cons_append, List.tail_cons]
      exact List.mem_append_left [s] (by simpa using hx)

theorem mem_rollAppendPop_of_mem_tail {x : String} (c : ℕ) (l : List String)
    (s : String) (hx : x ∈ l.tail) : x ∈ rollAppendPop c l s := by
  unfold rollAppendPop
  dsimp only
  split_ifs with hif
  · exact mem_tail_append_single l s hx
  · exact List.mem_append_left [s] (List.mem_of_mem_tail hx)

/-- Every branch of the stream line loop leaves the log list unchanged or
appends to it through the pop-trim rolling append, so its length never
shrinks. -/
theorem streamStep_logs_length (pS pE : ℚ) (st : StreamState) (line : String) :
    st.logs.length ≤ (streamStep pS pE st line).1.logs.length := by
  unfold streamStep
  dsimp only
  split_ifs
  · exact le_refl _
  · exact le_refl _
  · exact le_refl _
  · exact le_refl _
  · split
    · split_ifs
      · exact le_refl _
      · exact rollAppendPop_length_ge 20 st.logs _
    · exact rollAppendPop_length_ge 20 st.logs _

theorem streamRun_logs_length (pS pE : ℚ) :
    ∀ (lines : List String) (st : StreamState),
      st.logs.length ≤ (streamRun pS pE st lines).1.logs.length := by
  intro lines
  induction lines with
  | nil => intro st; simp [streamRun]
  | cons l ls ih =>
      intro st
      calc st.logs.length ≤ (streamStep pS pE st l).1.logs.length :=
            streamStep_logs_length pS pE st l
        _ ≤ (streamRun pS pE (streamStep pS pE st l).1 ls).1.logs.length :=
            ih (streamStep pS pE st l).1
        _ = (streamRun pS pE st (l :: ls)).1.logs.length := by
            simp [streamRun]

/-- `_stream_winget_upgrades` always leaves the shared log strictly longer
than it was at entry. -/
theorem streamWinget_logs_length (pS pE : ℚ) (logs0 : List String) (pct0 : ℚ)
    (spawn : StreamSpawn) :
    logs0.length + 1 ≤ (streamWinget pS pE logs0 pct0 spawn).logs.length := by
  cases spawn with
  | notFound => simp [streamWinget]
  | timedOut emitted =>
      have h1 : (logs0 ++ [checkingMsg]).length
          ≤ (rollAppendPop 20 (logs0 ++ [checkingMsg]) "winget scan timed out.").length :=
        rollAppendPop_length_ge 20 _ _
      simpa [streamWinget] using h1
  | completed out =>
      have h1 := streamRun_logs_length pS pE (pySplitlines out)
        { logs := logs0 ++ [checkingMsg], apps := [], headerSeen := false
          sepSeen := false, pct := pS }
      simpa [streamWinget] using h1

/-!  ## Line-classification and parser lemmas  -/

/-- The stream line loop issues exactly one progress update per line, except
for header and separator lines, which issue none. -/
theorem streamStep_trace_eq (pS pE : ℚ) (st : StreamState) (line : String) :
    (streamStep pS pE st line).2
      = if isHeaderLine line || isSepLine st line then []
        else [bump pS pE st.pct] := by
  by_cases hb : pyRstrip line = ""
  · simp [streamStep, isHeaderLine, isSepLine, hb]
  · have hb' : (pyRstrip line == "") = false := beq_eq_false_iff_ne.mpr hb
    by_cases hh : matchHeader (pyRstrip line) = true
    · simp [streamStep, isHeaderLine, isSepLine, hb, hb', hh]
    · have hh' : matchHeader (pyRstrip line) = false := by
        simpa using hh
      by_cases hs : (st.headerSeen && matchSep (pyRstrip line)) = true
      · simp [streamStep, isHeaderLine, isSepLine, hb, hb', hh', hs]
      · have hs' : (st.headerSeen && matchSep (pyRstrip line)) = false := by
          simpa using hs
        by_cases hflags : (st.headerSeen && st.sepSeen) = true
        · have hms : matchSep (pyRstrip line) = false := by
            have hhs : st.headerSeen = true := (Bool.and_eq_true _ _ |>.mp hflags).1
            simpa [hhs] using hs
          rw [if_neg (by simp [isHeaderLine, isSepLine, hb', hh', hms])]
          simp only [streamStep, hb, hb', hh', hs', hflags, if_neg, Bool.not_true,
            Bool.false_eq_true, if_false]
          split
          · split_ifs <;> rfl
          · rfl
        · have hflags' : (st.headerSeen && st.sepSeen) = false := by
            simpa using hflags
          simp [streamStep, isHeaderLine, isSepLine, hb, hb', hh', hs', hflags']

/-- Blank lines, header lines, separator lines and pre-table noise lines are
never appended to the rolling log by the stream line loop. -/
theorem streamStep_logs_unchanged (pS pE : ℚ) (st : StreamState) (line : String)
    (h : pyRstrip line = "" ∨ isHeaderLine line = true ∨ isSepLine st line = true
        ∨ (st.headerSeen && st.sepSeen) = false) :
    (streamStep pS pE st line).1.logs = st.logs := by
  unfold streamStep
  dsimp only
  split_ifs with h1 h2 h3 h4
  · rfl
  · rfl
  · rfl
  · rfl
  · exfalso
    unfold isHeaderLine isSepLine at h
    simp_all

/-- The stream line loop accepts no data row before both the header and the
separator line have been observed. -/
theorem streamStep_apps_gated (pS pE : ℚ) (st : StreamState) (line : String)
    (h : st.headerSeen = false ∨ st.sepSeen = false) :
    (streamStep pS pE st line).1.apps = st.apps := by
  unfold streamStep
  dsimp only
  split_ifs with h1 h2 h3 h4
  · rfl
  · rfl
  · rfl
  · rfl
  · exfalso
    simp_all

/-- The table fallback of `winget_list_upgrades` accepts an acceptable data
line wherever it occurs, with no header/separator requirement. -/
theorem parseUpgradeTable_accepts_anywhere (pre post : List String) (l : String)
    (a : WingetApp) (h : tableRowOfLine l = some a) :
    parseUpgradeTable (pre ++ l :: post)
      = parseUpgradeTable pre ++ a :: parseUpgradeTable post := by
  simp [parseUpgradeTable, List.filterMap_append, List.filterMap_cons, h]

/-- A decoded object with the required fields is kept by the JSON loop body
and resolves to `mkJsonRow`. -/
theorem jsonRow_of_required (it : WingetJsonItem) (h : hasRequired it = true) :
    jsonRow it = some (mkJsonRow it) := by
  unfold hasRequired at h
  unfold jsonRow mkJsonRow
  dsimp only
  cases hpid : pyOrS it.idField it.packageIdentifier with
  | none => rw [hpid] at h; simp at h
  | some p =>
      rw [hpid] at h
      simp only [Option.getD_some] at h ⊢
      rw [if_pos h]

/-- The JSON path keeps every decoded object that has the required fields,
in input order. -/
theorem parseJsonItems_of_required :
    ∀ (items : List WingetJsonItem), (∀ it ∈ items, hasRequired it = true) →
      parseJsonItems items = items.map mkJsonRow := by
  intro items
  induction items with
  | nil => intro _; rfl
  | cons it items ih =>
      intro h
      have hit : hasRequired it = true := h it (by simp)
      have hrest := ih fun x hx => h x (by simp [hx])
      simp [parseJsonItems, List.filterMap_cons, jsonRow_of_required it hit]
      simpa [parseJsonItems] using hrest

/-- The skip message of the disabled Windows-update phase is present in the
final log of every `health_check` run. -/
theorem healthCheck_skipMsg_mem (spawn : StreamSpawn) (junkMsg : String) :
    skipMsg ∈ (healthCheck spawn junkMsg).logs := by
  have h2 : 2 ≤ (streamWinget 0 40 [prepMsg] 0 spawn).logs.length := by
    have := streamWinget_logs_length 0 40 [prepMsg] 0 spawn
    simpa using this
  have h2' : 2 ≤ (rollAppendPop 20 (streamWinget 0 40 [prepMsg] 0 spawn).logs
      ("App scan complete. " ++ toString (streamWinget 0 40 [prepMsg] 0 spawn).apps.length
        ++ " update(s) detected.")).length :=
    le_trans h2 (rollAppendPop_length_ge 20 _ _)
  have h3 := mem_tail_rollAppendPop_self 20 _ skipMsg h2'
  have h4 := mem_tail_append_single _ "Scanning junk files…" h3
  have h5 := mem_rollAppendPop_of_mem_tail 20 _ junkMsg h4
  have h6 := List.mem_append_left ["Scan complete."] h5
  simpa [healthCheck] using h6

/-!  ## Claim theorems  -/

/-- C1: for every phase range with `phase_start ≤ phase_end`, the progress
value maintained during a phase — through the per-line `_bump` of
`_stream_winget_upgrades` and the per-update bump of
`_scan_windows_updates_quiet` — is non-decreasing, never exceeds
`phase_end`, and the final `progress.update` at phase exit (including the
timeout path) sets exactly `phase_end`. -/
theorem c1_phase_progress (pS pE : ℚ) (h : pS ≤ pE) (logs0 : List String)
    (pct0 : ℚ) (spawn : StreamSpawn) (cur0 : ℚ) (hcur : cur0 ≤ pE)
    (oc : QuietOutcome) :
    (List.Chain (· ≤ ·) pS (streamWinget pS pE logs0 pct0 spawn).trace
      ∧ (∀ x ∈ (streamWinget pS pE logs0 pct0 spawn).trace, x ≤ pE)
      ∧ (spawn ≠ StreamSpawn.notFound →
          (streamWinget pS pE logs0 pct0 spawn).trace.getLast? = some pE))
    ∧ (List.Chain (· ≤ ·) cur0 (scanQuietPcts pS pE cur0 oc)
      ∧ (∀ x ∈ scanQuietPcts pS pE cur0 oc, x ≤ pE)
      ∧ (scanQuietPcts pS pE cur0 oc).getLast? = some pE) := by
  constructor
  · exact streamWinget_trace_spec pS pE h logs0 pct0 spawn
  · cases oc with
    | psNotFound =>
        refine ⟨List.Chain.cons hcur List.Chain.nil, ?_, rfl⟩
        intro x hx
        simp only [scanQuietPcts, List.mem_singleton] at hx
        rw [hx]
    | timedOut =>
        refine ⟨List.Chain.cons hcur List.Chain.nil, ?_, rfl⟩
        intro x hx
        simp only [scanQuietPcts, List.mem_singleton] at hx
        rw [hx]
    | items n =>
        exact quietTrace_spec pS pE h (min n 50) cur0 hcur

/-- C1 witness: the phase-progress invariant instantiated at the concrete
range 0–40 with a one-line winget scan and a two-update quiet scan. -/
theorem c1_phase_progress_witness :
    (List.Chain (· ≤ ·) (0 : ℚ) (streamWinget 0 40 [] 0 (StreamSpawn.completed "a")).trace
      ∧ (∀ x ∈ (streamWinget 0 40 [] 0 (StreamSpawn.completed "a")).trace, x ≤ 40)
      ∧ (StreamSpawn.completed "a" ≠ StreamSpawn.notFound →
          (streamWinget 0 40 [] 0 (StreamSpawn.completed "a")).trace.getLast? = some 40))
    ∧ (List.Chain (· ≤ ·) (0 : ℚ) (scanQuietPcts 0 40 0 (QuietOutcome.items 2))
      ∧ (∀ x ∈ scanQuietPcts 0 40 0 (QuietOutcome.items 2), x ≤ 40)
      ∧ (scanQuietPcts 0 40 0 (QuietOutcome.items 2)).getLast? = some 40) :=
  c1_phase_progress 0 40 (by norm_num) [] 0 (StreamSpawn.completed "a") 0
    (by norm_num) (QuietOutcome.items 2)

/-- C2: for every rolling-log capacity `c > 0` (40 in `run_with_live_output`,
20 in the health-check helpers) and every sequence of appended lines, the
log length stays at most `c` after each append, and after appending more
than `c` lines the log holds exactly the last `c` appended lines in their
original order — for both trim variants of the source. -/
theorem c2_rolling_log (c : ℕ) (hc : 0 < c) (init : List String)
    (hinit : init.length ≤ c) (xs : List String) :
    (∀ n : ℕ, (List.foldl (rollAppendSlice c) init (xs.take n)).length ≤ c
      ∧ (List.foldl (rollAppendPop c) init (xs.take n)).length ≤ c)
    ∧ (c < xs.length →
        List.foldl (rollAppendSlice c) init xs = xs.drop (xs.length - c)
        ∧ List.foldl (rollAppendPop c) init xs = xs.drop (xs.length - c)) := by
  constructor
  · intro n
    constructor
    · rw [rollAppendSlice_eq_drop c hc (xs.take n) init hinit, List.length_drop,
        List.length_append]
      omega
    · rw [rollAppendPop_eq_drop c (xs.take n) init hinit, List.length_drop,
        List.length_append]
      omega
  · intro hlen
    have harith : init.length + xs.length - c
        = init.length + (xs.length - c) := by omega
    constructor
    · rw [rollAppendSlice_eq_drop c hc xs init hinit, harith, ← List.drop_drop,
        List.drop_left]
    · rw [rollAppendPop_eq_drop c xs init hinit, harith, ← List.drop_drop,
        List.drop_left]

/-- C2 witness: capacity 2, three appended lines: the log ends as the last
two lines for both trim variants, and every intermediate length is within
capacity. -/
theorem c2_rolling_log_witness :
    (∀ n : ℕ, (List.foldl (rollAppendSlice 2) [] ((["a", "b", "c"] : List String).take n)).length ≤ 2
      ∧ (List.foldl (rollAppendPop 2) [] ((["a", "b", "c"] : List String).take n)).length ≤ 2)
    ∧ (2 < (["a", "b", "c"] : List String).length →
        List.foldl (rollAppendSlice 2) [] ["a", "b", "c"]
          = (["a", "b", "c"] : List String).drop ((["a", "b", "c"] : List String).length - 2)
        ∧ List.foldl (rollAppendPop 2) [] ["a", "b", "c"]
          = (["a", "b", "c"] : List String).drop ((["a", "b", "c"] : List String).length - 2)) :=
  c2_rolling_log 2 (by decide) [] (by decide) ["a", "b", "c"]

/-- C3 counterexample: with the Windows-update phase disabled, a
`health_check` run over an empty winget output issues the progress values
40, 80, 100 — the app phase ends at 40, not at the claimed 50, the skipped
phase's span is consumed by the snap to 80 — and the skip message does
appear in the log, all contradicting the claim. -/
theorem c3_counterexample :
    (healthCheck (StreamSpawn.completed "") "Junk size detected: 0.0 B").trace
      = [40, 80, 100]
    ∧ skipMsg ∈ (healthCheck (StreamSpawn.completed "") "Junk size detected: 0.0 B").logs
    ∧ (50 : ℚ) ∉ (healthCheck (StreamSpawn.completed "") "Junk size detected: 0.0 B").trace := by
  refine ⟨?_, ?_, ?_⟩ <;> decide

/-- C3 amended: `health_check` performs no weight redistribution when the
Windows-update phase is disabled: the app phase keeps the hard-coded range
[0, 40], the skipped phase's span [40, 80] is bridged by a single snap of
the completed value to 80 followed by the junk phase's snap to 100, and the
skip message is appended to the log. -/
theorem c3_phase_ranges_amended (spawn : StreamSpawn) (junkMsg : String) :
    (healthCheck spawn junkMsg).trace
      = (streamWinget 0 40 [prepMsg] 0 spawn).trace ++ [80, 100]
    ∧ (∀ x ∈ (streamWinget 0 40 [prepMsg] 0 spawn).trace, x ≤ 40)
    ∧ skipMsg ∈ (healthCheck spawn junkMsg).logs := by
  refine ⟨rfl, ?_, healthCheck_skipMsg_mem spawn junkMsg⟩
  exact (streamWinget_trace_spec 0 40 (by norm_num) [prepMsg] 0 spawn).2.1

/-- C4 counterexample: a winget scan that times out after having emitted a
complete table (header, separator, one data row) returns an empty row list,
while the same lines delivered in time yield the row — the output emitted
before the timeout is not returned to the caller. -/
theorem c4_counterexample :
    (streamWinget 0 40 [] 0 (StreamSpawn.timedOut
        ["Name  Id  Version  Available", "-----", "Foo Bar   FooBar.App   1.0   2.0"])).apps
      = []
    ∧ (streamWinget 0 40 [] 0 (StreamSpawn.completed
        "Name  Id  Version  Available\n-----\nFoo Bar   FooBar.App   1.0   2.0")).apps
      = [⟨"FooBar.App", "Foo Bar", "1.0", "2.0"⟩] := by
  refine ⟨rfl, ?_⟩
  decide

/-- C4 amended: on timeout the process is killed and the scan continues —
progress is snapped to `phase_end` and a timeout notice is appended to the
rolling log — but the helper returns an empty row list: whatever the
process emitted before the timeout is discarded (the result is independent
of it), and there is no timed-out flag in the return value beyond the log
message. -/
theorem c4_timeout_amended (pS pE : ℚ) (logs0 : List String) (pct0 : ℚ)
    (emitted emitted2 : List String) :
    (streamWinget pS pE logs0 pct0 (StreamSpawn.timedOut emitted)).apps = []
    ∧ (streamWinget pS pE logs0 pct0 (StreamSpawn.timedOut emitted)).pct = pE
    ∧ (streamWinget pS pE logs0 pct0 (StreamSpawn.timedOut emitted)).trace = [pE]
    ∧ "winget scan timed out."
        ∈ (streamWinget pS pE logs0 pct0 (StreamSpawn.timedOut emitted)).logs
    ∧ streamWinget pS pE logs0 pct0 (StreamSpawn.timedOut emitted)
        = streamWinget pS pE logs0 pct0 (StreamSpawn.timedOut emitted2) := by
  refine ⟨rfl, rfl, rfl, ?_, rfl⟩
  exact mem_rollAppendPop_self 20 (logs0 ++ [checkingMsg]) _ (by simp)

/-- C5 counterexample: `proc.returncode or 0` maps a missing (`None`) return
code to 0 — which is zero, not the claimed non-zero sentinel — and returns a
negative code verbatim rather than normalizing it. -/
theorem c5_counterexample :
    (run_with_live_output "winget" "T" 100 (SpawnResult.ok ["x"] none)).1 = 0
    ∧ (run_with_live_output "winget" "T" 100 (SpawnResult.ok ["x"] (some (-9)))).1 = -9 :=
  ⟨rfl, rfl⟩

/-- C5 amended: the exit code returned by `run_with_live_output` is the OS
code taken verbatim — including negative codes — except that a missing
(`None`) code is normalized to 0; the 127 sentinel arises only on the
command-not-found path. -/
theorem c5_exit_code_amended (cmd0 title : String) (softTotal : ℕ)
    (lines : List String) (n : Int) :
    (run_with_live_output cmd0 title softTotal (SpawnResult.ok lines (some n))).1 = n
    ∧ (run_with_live_output cmd0 title softTotal (SpawnResult.ok lines none)).1 = 0
    ∧ (run_with_live_output cmd0 title softTotal SpawnResult.notFound).1 = 127 :=
  ⟨rfl, rfl, rfl⟩

/-- C6 counterexample: a command whose executable is present but cannot be
started (a `Popen` failure other than `FileNotFoundError`, such as
`PermissionError`) is not caught by the source's `except FileNotFoundError:`
handlers: the exception propagates out of both `run_with_live_output` and
`_stream_winget_upgrades`, and the caller receives neither exit code 127
nor an empty row list — contradicting the claim for the cannot-be-started
case. -/
theorem c6_counterexample :
    run_with_live_output_attempt "winget" "T" 100 (SpawnAttempt.fails PopenExc.other)
      = Except.error PopenExc.other
    ∧ streamWingetAttempt 0 40 [] 0 (StreamAttempt.fails PopenExc.other)
      = Except.error PopenExc.other
    ∧ run_with_live_output_attempt "winget" "T" 100 (SpawnAttempt.fails PopenExc.other)
      ≠ Except.ok (127, "Command not found: winget") := by
  refine ⟨rfl, rfl, ?_⟩
  intro hcontra
  exact absurd hcontra (by simp [run_with_live_output_attempt])

/-- C6 amended: only a `FileNotFoundError` from `Popen` — the executable
cannot be located — is caught: then `run_with_live_output` returns exit
code 127 with the not-found message having consumed no process line, and
`_stream_winget_upgrades` returns an empty row list without touching the
progress bar, no exception propagating.  Any other spawn failure (an
executable that is present but cannot be started) propagates out of both
functions uncaught. -/
theorem c6_spawn_failure_amended (cmd0 title : String) (softTotal : ℕ)
    (pS pE : ℚ) (logs0 : List String) (pct0 : ℚ) :
    run_with_live_output_attempt cmd0 title softTotal
        (SpawnAttempt.fails PopenExc.fileNotFound)
      = Except.ok (127, "Command not found: " ++ cmd0)
    ∧ streamWingetAttempt pS pE logs0 pct0 (StreamAttempt.fails PopenExc.fileNotFound)
      = Except.ok
          { apps := []
            logs := logs0
              ++ ["winget not found (install App Installer from Microsoft Store)."]
            pct := pct0
            trace := [] }
    ∧ run_with_live_output_attempt cmd0 title softTotal
        (SpawnAttempt.fails PopenExc.other) = Except.error PopenExc.other
    ∧ streamWingetAttempt pS pE logs0 pct0 (StreamAttempt.fails PopenExc.other)
      = Except.error PopenExc.other :=
  ⟨rfl, rfl, rfl, rfl⟩

/-- C7 counterexample: a header line is fed to the parser state machine but
neither advances the progress tracker nor is appended to the rolling log,
and a blank line advances the tracker without being appended to the rolling
log — contradicting the claimed append-and-advance for every line. -/
theorem c7_counterexample :
    (streamStep 0 40 ⟨[], [], false, false, 0⟩ "Name  Id  Version  Available").2 = []
    ∧ (streamStep 0 40 ⟨[], [], false, false, 0⟩ "Name  Id  Version  Available").1.logs = []
    ∧ (streamStep 0 40 ⟨[], [], false, false, 0⟩ "").1.logs = []
    ∧ (streamStep 0 40 ⟨[], [], false, false, 0⟩ "").2 ≠ [] := by
  refine ⟨by decide, by decide, by decide, ?_⟩
  have h : (streamStep 0 40 ⟨[], [], false, false, 0⟩ "").2 = [bump 0 40 0] := rfl
  rw [h]
  exact List.cons_ne_nil _ _

/-- C7 amended: in `run_with_live_output` every received line is rstripped,
appended to the rolling log and to the combined output, and advances the
bar by one exactly while the line count stays within `soft_total`; in the
streaming scan every line issues exactly one progress update except header
and separator lines (which only update the parser state), and blank,
header, separator and pre-table lines are never appended to the rolling
log. -/
theorem c7_per_line_amended :
    (∀ (softTotal : ℕ) (st : RunState) (line : String),
      (rwloStep softTotal st line).logs = rollAppendSlice 40 st.logs (pyRstrip line)
      ∧ (rwloStep softTotal st line).combined = st.combined ++ [pyRstrip line]
      ∧ (rwloStep softTotal st line).progress
          = (if st.tick + 1 ≤ softTotal then st.progress + 1 else st.progress))
    ∧ (∀ (pS pE : ℚ) (st : StreamState) (line : String),
        (streamStep pS pE st line).2
          = if isHeaderLine line || isSepLine st line then []
            else [bump pS pE st.pct])
    ∧ (∀ (pS pE : ℚ) (st : StreamState) (line : String),
        (pyRstrip line = "" ∨ isHeaderLine line = true ∨ isSepLine st line = true
          ∨ (st.headerSeen && st.sepSeen) = false) →
        (streamStep pS pE st line).1.logs = st.logs) :=
  ⟨fun _ _ _ => ⟨rfl, rfl, rfl⟩, streamStep_trace_eq, streamStep_logs_unchanged⟩

/-- C7 witness: a pre-table noise line leaves the rolling log of the
streaming scan unchanged. -/
theorem c7_per_line_amended_witness :
    (streamStep 0 40 ⟨[], [], false, false, 0⟩ "noise").1.logs = [] :=
  c7_per_line_amended.2.2 0 40 ⟨[], [], false, false, 0⟩ "noise"
    (Or.inr (Or.inr (Or.inr rfl)))

/-- C8 counterexample: the table fallback of `winget_list_upgrades` accepts
a data-shaped line as a row although no header line and no separator line
were ever observed. -/
theorem c8_counterexample :
    parseUpgradeTable ["Foo Bar   FooBar.App   1.0   2.0"]
      = [⟨"FooBar.App", "Foo Bar", "1.0", "2.0"⟩] := by
  decide

/-- C8 amended: only the streaming scan gates data rows on having observed
both a header and a separator line; the table fallback of
`winget_list_upgrades` merely skips lines starting with `Name` or `---` and
accepts an acceptable data line wherever it occurs, with no such gate. -/
theorem c8_table_gating_amended :
    (∀ (pS pE : ℚ) (st : StreamState) (line : String),
        st.headerSeen = false ∨ st.sepSeen = false →
        (streamStep pS pE st line).1.apps = st.apps)
    ∧ (∀ (pre post : List String) (l : String) (a : WingetApp),
        tableRowOfLine l = some a →
        parseUpgradeTable (pre ++ l :: post)
          = parseUpgradeTable pre ++ a :: parseUpgradeTable post) :=
  ⟨streamStep_apps_gated, parseUpgradeTable_accepts_anywhere⟩

/-- C8 witness: before the header is seen the streaming scan accepts no row
from a data-shaped line, while the table fallback accepts the same line
after an arbitrary noise line. -/
theorem c8_table_gating_amended_witness :
    (streamStep 0 40 ⟨[], [], false, false, 0⟩ "Foo Bar   FooBar.App   1.0   2.0").1.apps = []
    ∧ parseUpgradeTable (["x"] ++ "Foo Bar   FooBar.App   1.0   2.0" :: [])
      = parseUpgradeTable ["x"]
          ++ (⟨"FooBar.App", "Foo Bar", "1.0", "2.0"⟩ : WingetApp) :: parseUpgradeTable [] :=
  ⟨c8_table_gating_amended.1 0 40 ⟨[], [], false, false, 0⟩ _ (Or.inl rfl),
   c8_table_gating_amended.2 ["x"] [] _ _ (by decide)⟩

/-- C9: a well-formed JSON array whose objects all carry a non-empty
identifier and a non-empty available version parses to exactly one row per
object, in input order, with the field values resolved as in the source. -/
theorem c9_json_roundtrip (items : List WingetJsonItem)
    (h : ∀ it ∈ items, hasRequired it = true) :
    parseJsonItems items = items.map mkJsonRow
    ∧ (parseJsonItems items).length = items.length := by
  have he := parseJsonItems_of_required items h
  exact ⟨he, by rw [he, List.length_map]⟩

/-- C9 witness: a one-object array with Id, Name, Version and Available
fields parses to exactly that row. -/
theorem c9_json_roundtrip_witness :
    parseJsonItems [⟨some "X.Y", none, some "N", some "1", none, some "2", none⟩]
      = [(⟨some "X.Y", none, some "N", some "1", none, some "2", none⟩ : WingetJsonItem)].map
          mkJsonRow
    ∧ (parseJsonItems
        [(⟨some "X.Y", none, some "N", some "1", none, some "2", none⟩ : WingetJsonItem)]).length
      = [(⟨some "X.Y", none, some "N", some "1", none, some "2", none⟩ : WingetJsonItem)].length :=
  c9_json_roundtrip _ (by decide)

/-- C10: when the JSON decode succeeds but yields zero valid rows (for
example an empty array), `winget_list_upgrades` does not return the JSON
path's empty result: it falls through to the column-table path — a second
run of the external command, whose lines are the `tableLines` input here —
and returns whatever the table heuristic parses. -/
theorem c10_json_empty_falls_back (items : List WingetJsonItem)
    (tableLines : List String) (h : parseJsonItems items = []) :
    winget_list_upgrades true true (JsonDecode.ok items) tableLines
      = parseUpgradeTable tableLines := by
  simp [winget_list_upgrades, h]

/-- C10 witness: an empty JSON array falls back to the table parse of the
second run's output. -/
theorem c10_json_empty_falls_back_witness :
    winget_list_upgrades true true (JsonDecode.ok []) ["A   B   C   D"]
      = parseUpgradeTable ["A   B   C   D"] :=
  c10_json_empty_falls_back [] ["A   B   C   D"] rfl

end CoreUpdateCLI
